import Mathlib

/-
Verification of the advanced-vector repository (src/advanced-vector/vector.h).

The C++ template `Vector<T>` stores its constructed elements in slots
`[0, size_)` of a `RawMemory<T>` buffer of `capacity_` slots.  The value-level
model below represents a vector state by the list `elems` of constructed
element values (so `size_` is `elems.length`) together with `capacity`.
Operations translate the control flow of vector.h branch by branch.

Two refined models are used where the claims need finer granularity:
 - `SlotVec` views the buffer as a list of slots (`some x` = constructed
   element with value `x`, `none` = raw slot), to track exactly which slots a
   branch destroys or assigns;
 - exception-instrumented variants (suffix `E`) thread a budget counter for
   the instrumented element type of spec section 8: each potentially-throwing
   element operation consumes one unit of budget and throws when it is
   exhausted, while destructors never throw (C++ destructors are implicitly
   noexcept).
-/

namespace AdvVec

/-- Model of the `Vector<T>` state: `elems` lists the constructed elements
occupying slots `[0, size_)` of the backing `RawMemory` buffer `data_`, and
`capacity` is `data_.Capacity()`. -/
structure Vector (α : Type) where
  elems : List α
  capacity : Nat
deriving DecidableEq, Repr

/-- Invariant of the data model: `size_ <= capacity_`. -/
abbrev Vector.Inv {α : Type} (v : Vector α) : Prop := v.elems.length ≤ v.capacity

/-- Default constructor `Vector() = default`: null buffer, capacity 0, size 0. -/
def Vector.defaultVec (α : Type) : Vector α := ⟨[], 0⟩

/-- Sized constructor `Vector(size_t size)`: buffer of `size` slots, `size`
value-constructed elements; `d` stands for the value produced by `T()`. -/
def Vector.mkSized {α : Type} (n : Nat) (d : α) : Vector α := ⟨List.replicate n d, n⟩

/-- Copy constructor: buffer of `other.size_` slots, deep copy of `[0, size_)`. -/
def Vector.copyCtor {α : Type} (other : Vector α) : Vector α :=
  ⟨other.elems, other.elems.length⟩

/-- Method `Swap`: exchanges `data_` (buffer pointer and capacity) and `size_`
between the two vectors in O(1); returns the pair of resulting states. -/
def Vector.Swap {α : Type} (a b : Vector α) : Vector α × Vector α := (b, a)

/-- Move constructor: the new vector starts default-initialized (empty,
capacity 0) and swaps with `other`.  Returns (new vector, `other` afterwards). -/
def Vector.moveCtor {α : Type} (other : Vector α) : Vector α × Vector α :=
  Vector.Swap (Vector.defaultVec α) other

/-- Move assignment `operator=(Vector&&)`: `Swap(rhs)`.
Returns (lhs afterwards, rhs afterwards). -/
def Vector.moveAssign {α : Type} (lhs rhs : Vector α) : Vector α × Vector α :=
  Vector.Swap lhs rhs

/-- Copy assignment `operator=(const Vector&)`, value-level effect of the four
branches of vector.h lines 120-145: if `rhs.size_ > data_.Capacity()`, build a
copy of rhs and swap it in; otherwise reuse the buffer (the three sub-branches
destroy or construct the difference and copy-assign the overlap; their
value-level result is the same, the slot-level effect of the shrink branch is
modelled separately by `SlotVec.copyAssignShrink`). -/
def Vector.copyAssign {α : Type} (lhs rhs : Vector α) : Vector α :=
  if rhs.elems.length > lhs.capacity then
    Vector.copyCtor rhs
  else if lhs.elems.length > rhs.elems.length then
    ⟨rhs.elems, lhs.capacity⟩
  else if lhs.elems.length < rhs.elems.length then
    ⟨rhs.elems, lhs.capacity⟩
  else
    ⟨rhs.elems, lhs.capacity⟩

/-- Method `Reserve(new_capacity)`: no-op when `new_capacity <= data_.Capacity()`;
otherwise a new buffer of `new_capacity` slots receives the elements. -/
def Vector.Reserve {α : Type} (v : Vector α) (newCapacity : Nat) : Vector α :=
  if newCapacity ≤ v.capacity then v else ⟨v.elems, newCapacity⟩

/-- Method `PopBack() noexcept`: when `size_ > 0`, destroys the last element and
decrements `size_`; otherwise does nothing. -/
def Vector.PopBack {α : Type} (v : Vector α) : Vector α :=
  if 0 < v.elems.length then ⟨v.elems.dropLast, v.capacity⟩ else v

/-- The shrink loop of `Resize`: `k` successive `PopBack()` calls. -/
def Vector.popBackTimes {α : Type} (v : Vector α) : Nat → Vector α
  | 0 => v
  | k + 1 => (v.PopBack).popBackTimes k

/-- Method `Resize(new_size)`: equal size is a no-op; a smaller size pops the
difference one element at a time; a larger size reserves `new_size` and
value-constructs the new tail slots (`d` stands for the value of `T()`). -/
def Vector.Resize {α : Type} (v : Vector α) (d : α) (newSize : Nat) : Vector α :=
  if newSize = v.elems.length then v
  else if newSize < v.elems.length then v.popBackTimes (v.elems.length - newSize)
  else
    let v2 := v.Reserve newSize
    ⟨v2.elems ++ List.replicate (newSize - v.elems.length) d, v2.capacity⟩

/-- Method `PushBack(value)`: spare capacity constructs in place at `size_`;
otherwise a new buffer of `size_ == 0 ? 1 : size_ * 2` slots receives the new
element and then the old elements, which are destroyed before the swap. -/
def Vector.PushBack {α : Type} (v : Vector α) (x : α) : Vector α :=
  if v.elems.length < v.capacity then
    ⟨v.elems ++ [x], v.capacity⟩
  else
    ⟨v.elems ++ [x], if v.elems.length = 0 then 1 else v.elems.length * 2⟩

/-- Method `EmplaceBack(args...)`: its body is identical to `PushBack` with the
constructed value `T(args...)` written `x`. -/
def Vector.EmplaceBack {α : Type} (v : Vector α) (x : α) : Vector α := v.PushBack x

/-- Element-sequence effect of `Emplace` at offset `numPos`: the elements before
the insertion point, the new value, then the elements from the insertion point on. -/
def insertList {α : Type} (l : List α) (numPos : Nat) (x : α) : List α :=
  l.take numPos ++ x :: l.drop numPos

/-- Element-sequence effect of `Erase` at offset `numPos`: the shift
`std::move(begin() + num_pos + 1, end(), begin() + num_pos)` followed by the
destruction of the vacated last slot leaves the elements before `numPos` and the
elements after it. -/
def eraseList {α : Type} (l : List α) (numPos : Nat) : List α :=
  l.take numPos ++ l.drop (numPos + 1)

/-- Method `Emplace(pos, args...)` with `num_pos = pos - begin()`: spare capacity
inserts in place (directly at the end, or by relocating the last element, shifting
and assigning); a full buffer reallocates to `size_ == 0 ? 1 : size_ * 2` slots,
constructing the new element at its offset and transferring prefix and suffix.
Both paths realize the same element sequence `insertList`. -/
def Vector.Emplace {α : Type} (v : Vector α) (numPos : Nat) (x : α) : Vector α :=
  if v.elems.length < v.capacity then
    ⟨insertList v.elems numPos x, v.capacity⟩
  else
    ⟨insertList v.elems numPos x, if v.elems.length = 0 then 1 else v.elems.length * 2⟩

/-- Method `Insert(pos, value)`: forwards to `Emplace`. -/
def Vector.Insert {α : Type} (v : Vector α) (numPos : Nat) (x : α) : Vector α :=
  v.Emplace numPos x

/-- The `end()` iterator as an element offset from `begin()`. -/
def Vector.endIdx {α : Type} (v : Vector α) : Nat := v.elems.length

/-- Method `Erase(pos)` with `num_pos = pos - begin()`: when `size_ > 0`, shifts
the elements after `pos` one slot toward the front, decrements `size_` and
destroys the vacated slot.  Returns the new state and the returned iterator as an
offset: `(size_ + 1) == 1 ? end() : begin() + num_pos` (with `size_` already
decremented). -/
def Vector.Erase {α : Type} (v : Vector α) (numPos : Nat) : Vector α × Nat :=
  if 0 < v.elems.length then
    let v2 : Vector α := ⟨eraseList v.elems numPos, v.capacity⟩
    (v2, if v2.elems.length + 1 = 1 then v2.endIdx else numPos)
  else
    (v, if v.elems.length + 1 = 1 then v.endIdx else numPos)

/-- Slot-level view of the buffer for copy assignment: slot `i` of `data_`
holds `some x` when a constructed element with value `x` lives there, `none`
when the slot is raw (uninitialized or destroyed). -/
structure SlotVec (α : Type) where
  slots : List (Option α)
  size : Nat
deriving DecidableEq, Repr

/-- Helper `DestroyN(buf + off, n)`: runs the destructor on the `n` slots
starting at offset `off`, leaving them raw. -/
def destroyRange {α : Type} : List (Option α) → Nat → Nat → List (Option α)
  | [], _, _ => []
  | l, _, 0 => l
  | _ :: rest, 0, n + 1 => none :: destroyRange rest 0 n
  | s :: rest, off + 1, n => s :: destroyRange rest off n

/-- The algorithm `std::copy(src, src + len, buf + off)`: element-wise copy
assignment of the source values into the slots starting at offset `off`. -/
def assignRange {α : Type} : List (Option α) → Nat → List α → List (Option α)
  | [], _, _ => []
  | l, _, [] => l
  | _ :: rest, 0, x :: xs => some x :: assignRange rest 0 xs
  | s :: rest, off + 1, xs => s :: assignRange rest off xs

/-- Slot-level model of the copy-assignment branch for `size_ > rhs.size_`
(vector.h lines 126-130): `DestroyN(data_.GetAddress(), size_ - rhs.size_)`,
then `size_ = rhs.size_`, then `std::copy` of the `rhs` elements into the slots
starting at offset 0. -/
def SlotVec.copyAssignShrink {α : Type} (v : SlotVec α) (rhs : List α) : SlotVec α :=
  ⟨assignRange (destroyRange v.slots 0 (v.size - rhs.length)) 0 rhs, rhs.length⟩

/-- The behavior claim C2 states for that branch, following the spec text, for
comparison with `SlotVec.copyAssignShrink`: destroy exactly the trailing excess
slots `[rhs.size, size)`, then copy-assign the prefix `[0, rhs.size)`. -/
def SlotVec.copyAssignShrinkClaimed {α : Type} (v : SlotVec α) (rhs : List α) : SlotVec α :=
  ⟨assignRange (destroyRange v.slots rhs.length (v.size - rhs.length)) 0 rhs, rhs.length⟩

/-
Exception-instrumented machinery.  The budget (`fuel`) counter models the
instrumented element type of spec section 8: every potentially-throwing element
operation (copy or move construction, copy or move assignment) succeeds while
the budget is positive, consuming one unit, and throws when it reaches 0.
Destructors never throw.
-/

/-- One potentially-throwing element operation of the instrumented element type:
succeeds and consumes one unit while the budget is positive, throws at 0. -/
def tick : Nat → Except Unit Nat
  | 0 => .error ()
  | k + 1 => .ok k

/-- The algorithm `std::uninitialized_copy_n(src, n, buf + off)` with the
instrumented element type: constructs copies left to right; when a construction
throws, it destroys the elements this call already constructed (restoring their
slots to raw) and rethrows.  The error payload is the slot state at the moment
the exception leaves the algorithm. -/
def uninitCopyN {α : Type} :
    List α → Nat → List (Option α) → Nat → Except (List (Option α)) (List (Option α) × Nat)
  | [], _, slots, fuel => .ok (slots, fuel)
  | x :: rest, off, slots, fuel =>
    match tick fuel with
    | .error _ => .error slots
    | .ok fuel2 =>
      match uninitCopyN rest (off + 1) (slots.set off (some x)) fuel2 with
      | .error sl => .error (sl.set off none)
      | .ok r => .ok r

/-- Reallocating path of `PushBack` (vector.h lines 232-245) with the
instrumented element type, in the copy-transfer variant (element type not
nothrow-move-constructible): allocate `size_ == 0 ? 1 : size_ * 2` slots,
construct the new element at slot `size_` first, then `uninitialized_copy_n` the
old elements.  There is no try/catch around the transfer, so an exception from
it propagates as-is.  Success returns the new vector state; error returns the
vector after the failed call together with the new-storage slots still holding
constructed elements at propagation time (slots whose destructors never run,
since `RawMemory` only frees the raw bytes). -/
def Vector.pushBackReallocE {α : Type} (v : Vector α) (x : α) (fuel : Nat) :
    Except (Vector α × List (Option α)) (Vector α × Nat) :=
  let newCap := if v.elems.length = 0 then 1 else v.elems.length * 2
  let slots0 : List (Option α) := List.replicate newCap none
  match tick fuel with
  | .error _ => .error (v, slots0)
  | .ok fuel2 =>
    match uninitCopyN v.elems 0 (slots0.set v.elems.length (some x)) fuel2 with
    | .error sl => .error (v, sl)
    | .ok (_, fuel3) => .ok (⟨v.elems ++ [x], newCap⟩, fuel3)

/-- The algorithm `std::move(first, last, d_first)` as used by `Erase`:
element-wise move assignment, left to right; a move assignment of the element
type may throw (nothing requires it to be noexcept), and the exception
propagates at once (live slots are not rolled back). -/
def moveAssignRange {α : Type} : List α → Nat → Except Unit (List α × Nat)
  | [], fuel => .ok ([], fuel)
  | x :: rest, fuel =>
    match tick fuel with
    | .error e => .error e
    | .ok fuel2 =>
      match moveAssignRange rest fuel2 with
      | .error e => .error e
      | .ok (ys, fuel3) => .ok (x :: ys, fuel3)

/-- Method `Erase` with the instrumented element type: the shift performs one
move assignment per element after the erased position, each of which may throw;
the final destruction of the vacated slot never throws. -/
def Vector.EraseE {α : Type} (v : Vector α) (numPos : Nat) (fuel : Nat) :
    Except Unit ((Vector α × Nat) × Nat) :=
  if 0 < v.elems.length then
    match moveAssignRange (v.elems.drop (numPos + 1)) fuel with
    | .error e => .error e
    | .ok (moved, fuel2) =>
      let v2 : Vector α := ⟨v.elems.take numPos ++ moved, v.capacity⟩
      .ok ((v2, if v2.elems.length + 1 = 1 then v2.endIdx else numPos), fuel2)
  else
    .ok ((v, if v.elems.length + 1 = 1 then v.endIdx else numPos), fuel)

/-- Helper `Destroy(buf)`: `buf->~T()`; destructors are implicitly noexcept, so
this never fails and consumes no throw budget. -/
def destroyE (fuel : Nat) : Except Unit Nat := .ok fuel

/-- Helper `DestroyN(buf, n)`: `n` destructor calls in order. -/
def destroyNE : Nat → Nat → Except Unit Nat
  | 0, fuel => .ok fuel
  | n + 1, fuel =>
    match destroyE fuel with
    | .error e => .error e
    | .ok fuel2 => destroyNE n fuel2

/-- Method `PopBack() noexcept` with the instrumented element type: its body
only destroys the last element and decrements `size_`. -/
def Vector.PopBackE {α : Type} (v : Vector α) (fuel : Nat) : Except Unit (Vector α × Nat) :=
  if 0 < v.elems.length then
    match destroyE fuel with
    | .error e => .error e
    | .ok fuel2 => .ok (⟨v.elems.dropLast, v.capacity⟩, fuel2)
  else
    .ok (v, fuel)

/-- The destructor `~Vector()`: `DestroyN(data_.GetAddress(), size_)`. -/
def Vector.dtorE {α : Type} (v : Vector α) (fuel : Nat) : Except Unit Nat :=
  destroyNE v.elems.length fuel

/-- Whether the source declares `PopBack` noexcept (vector.h line 371:
`void PopBack() noexcept`). -/
def popBackDeclaredNoexcept : Bool := true

/-- Whether the source declares `Erase` noexcept (vector.h line 361:
`iterator Erase(const_iterator pos)` carries no noexcept). -/
def eraseDeclaredNoexcept : Bool := false

/-- Whether `~Vector()` is non-throwing (destructors are implicitly noexcept). -/
def dtorDeclaredNoexcept : Bool := true

/-- The element-type traits consulted at compile time by every reallocation
site (`Reserve`, `PushBack`, `EmplaceBack`, `Emplace`). -/
structure ElemTraits where
  nothrowMoveConstructible : Bool
  copyConstructible : Bool
deriving DecidableEq, Repr

/-- How existing elements are transferred into the new buffer during a
reallocation. -/
inductive TransferMode : Type
  | move : TransferMode
  | copy : TransferMode
deriving DecidableEq, Repr

/-- The transfer the source chooses at every reallocation site:
`if constexpr (std::is_nothrow_move_constructible_v<T> ||
!std::is_copy_constructible_v<T>)` use `uninitialized_move_n`, else
`uninitialized_copy_n` (vector.h lines 199-203, 237-241, 258-262, 280-284,
323-331, 339-347). -/
def transferMode (t : ElemTraits) : TransferMode :=
  if t.nothrowMoveConstructible || !t.copyConstructible then .move else .copy

/-- The transfer rule claim C6 states, following the spec text, for comparison
with `transferMode`: move exactly when move construction is declared
non-throwing, otherwise copy. -/
def transferModeClaimed (t : ElemTraits) : TransferMode :=
  if t.nothrowMoveConstructible then .move else .copy

/-
Helper lemmas, shared by the claim theorems below.
-/

theorem length_insertList {α : Type} (l : List α) (k : Nat) (x : α) :
    (insertList l k x).length = l.length + 1 := by
  simp only [insertList, List.length_append, List.length_cons, List.length_take,
    List.length_drop]
  omega

theorem length_eraseList {α : Type} (l : List α) (k : Nat) :
    (eraseList l k).length ≤ l.length := by
  simp only [eraseList, List.length_append, List.length_take, List.length_drop]
  omega

theorem eraseList_insertList {α : Type} (l : List α) (k : Nat) (x : α)
    (h : k ≤ l.length) : eraseList (insertList l k x) k = l := by
  induction l generalizing k with
  | nil =>
    have hk : k = 0 := by simpa using h
    subst hk
    simp [insertList, eraseList]
  | cons a l ih =>
    cases k with
    | zero => simp [insertList, eraseList]
    | succ k =>
      have h2 : k ≤ l.length := by simpa using h
      show a :: eraseList (insertList l k x) k = a :: l
      exact congrArg (List.cons a) (ih k h2)

theorem Reserve_elems {α : Type} (v : Vector α) (n : Nat) :
    (v.Reserve n).elems = v.elems := by
  unfold Vector.Reserve
  split <;> rfl

theorem Reserve_capacity {α : Type} (v : Vector α) (n : Nat) :
    (v.Reserve n).capacity = max v.capacity n := by
  unfold Vector.Reserve
  split
  · next h => omega
  · next h => show n = max v.capacity n ; omega

theorem inv_PopBack {α : Type} (v : Vector α) (hv : v.Inv) : v.PopBack.Inv := by
  have hv2 : v.elems.length ≤ v.capacity := hv
  unfold Vector.PopBack
  split
  · show v.elems.dropLast.length ≤ v.capacity
    have := v.elems.length_dropLast
    omega
  · exact hv

theorem inv_popBackTimes {α : Type} (v : Vector α) (k : Nat) (hv : v.Inv) :
    (v.popBackTimes k).Inv := by
  induction k generalizing v with
  | zero => exact hv
  | succ k ih => exact ih v.PopBack (inv_PopBack v hv)

theorem popBackTimes_eq {α : Type} (v : Vector α) (k : Nat) (h : k ≤ v.elems.length) :
    (v.popBackTimes k).elems = v.elems.take (v.elems.length - k) ∧
    (v.popBackTimes k).capacity = v.capacity := by
  induction k generalizing v with
  | zero => exact ⟨(v.elems.take_length).symm ▸ rfl, rfl⟩
  | succ k ih =>
    have hpos : 0 < v.elems.length := by omega
    have hpb : v.PopBack = ⟨v.elems.dropLast, v.capacity⟩ := by
      unfold Vector.PopBack
      exact if_pos hpos
    have hdl : v.elems.dropLast = v.elems.take (v.elems.length - 1) :=
      v.elems.dropLast_eq_take
    have hlen : (v.PopBack).elems.length = v.elems.length - 1 := by
      rw [hpb]
      show v.elems.dropLast.length = _
      exact v.elems.length_dropLast
    have h2 : k ≤ (v.PopBack).elems.length := by omega
    have := ih v.PopBack h2
    rcases this with ⟨e1, e2⟩
    constructor
    · show ((v.PopBack).popBackTimes k).elems = _
      rw [e1, hlen, hpb]
      show (v.elems.dropLast.take (v.elems.length - 1 - k)) = _
      rw [hdl, List.take_take]
      have : min (v.elems.length - 1 - k) (v.elems.length - 1) =
          v.elems.length - (k + 1) := by omega
      rw [this]
    · show ((v.PopBack).popBackTimes k).capacity = _
      rw [e2, hpb]

theorem moveAssignRange_ok {α : Type} (l : List α) (fuel : Nat) (h : l.length ≤ fuel) :
    moveAssignRange l fuel = .ok (l, fuel - l.length) := by
  induction l generalizing fuel with
  | nil => rfl
  | cons x rest ih =>
    rcases fuel with _ | f
    · simp at h
    · have h2 : rest.length ≤ f := by
        simp only [List.length_cons] at h
        omega
      have ht : tick (f + 1) = .ok f := rfl
      simp only [moveAssignRange, ht, ih f h2, List.length_cons]
      have he : f + 1 - (rest.length + 1) = f - rest.length := by omega
      rw [he]

theorem destroyNE_ok (n fuel : Nat) : destroyNE n fuel = .ok fuel := by
  induction n with
  | zero => rfl
  | succ n ih => exact ih

theorem inv_PushBack {α : Type} (v : Vector α) (x : α) : (v.PushBack x).Inv := by
  unfold Vector.PushBack
  split
  · next h =>
    show (v.elems ++ [x]).length ≤ v.capacity
    simp only [List.length_append, List.length_cons, List.length_nil]
    omega
  · next h =>
    show (v.elems ++ [x]).length ≤
      (if v.elems.length = 0 then 1 else v.elems.length * 2)
    simp only [List.length_append, List.length_cons, List.length_nil]
    split <;> omega

theorem inv_Emplace {α : Type} (v : Vector α) (k : Nat) (x : α) :
    (v.Emplace k x).Inv := by
  unfold Vector.Emplace
  split
  · next h =>
    show (insertList v.elems k x).length ≤ v.capacity
    rw [length_insertList]
    omega
  · next h =>
    show (insertList v.elems k x).length ≤
      (if v.elems.length = 0 then 1 else v.elems.length * 2)
    rw [length_insertList]
    split <;> omega

theorem inv_Erase {α : Type} (v : Vector α) (k : Nat) (hv : v.Inv) :
    (v.Erase k).1.Inv := by
  have hv2 : v.elems.length ≤ v.capacity := hv
  unfold Vector.Erase
  split
  · show (eraseList v.elems k).length ≤ v.capacity
    have := length_eraseList v.elems k
    omega
  · exact hv

theorem inv_copyAssign {α : Type} (lhs rhs : Vector α) : (lhs.copyAssign rhs).Inv := by
  unfold Vector.copyAssign
  split
  · show rhs.elems.length ≤ rhs.elems.length
    exact Nat.le_refl _
  · next h =>
    have h2 : rhs.elems.length ≤ lhs.capacity := Nat.le_of_not_lt h
    split
    · exact h2
    · split
      · exact h2
      · exact h2

theorem inv_Resize {α : Type} (v : Vector α) (d : α) (n : Nat) (hv : v.Inv) :
    (v.Resize d n).Inv := by
  have hv2 : v.elems.length ≤ v.capacity := hv
  unfold Vector.Resize
  split
  · exact hv
  · split
    · exact inv_popBackTimes v _ hv
    · next h1 h2 =>
      show ((v.Reserve n).elems ++ List.replicate (n - v.elems.length) d).length ≤
        (v.Reserve n).capacity
      rw [List.length_append, Reserve_elems, Reserve_capacity, List.length_replicate]
      omega

/-
Claim theorems.
-/

/-- C1: evaluation of the code at the failing input.  Vector of one element at
full capacity (size 1, capacity 1), instrumented element type with throw budget
1, reallocating `PushBack` in the copy-transfer variant: the new element is
constructed in the new storage (budget 1 to 0), the transfer of the old element
then throws, and the exception propagates with the already-constructed new tail
element still alive in slot 1 of the new storage — the slot state at propagation
is not all-raw, so the rollback the claim requires does not happen; the original
vector is returned unchanged. -/
theorem pushBackRealloc_leaks_new_tail :
    Vector.pushBackReallocE (⟨[true], 1⟩ : Vector Bool) false 1 =
      .error (⟨[true], 1⟩, [none, some false]) ∧
    ([none, some false] : List (Option Bool)) ≠ List.replicate 2 none := by
  exact ⟨rfl, by decide⟩

/-- C2: evaluation of the code at the failing input.  Destination slots
`[some true, some false, some true]` (size 3, capacity 3), source `[false]`
(size 1): the shrink branch of copy assignment destroys the two LEADING slots
and copy-assigns the source into (destroyed) slot 0, leaving the trailing slot 2
constructed beyond the new size 1; the claimed behavior destroys exactly the
trailing excess slots `[1, 3)`.  The two results differ at slot 2. -/
theorem copyAssignShrink_destroys_leading :
    SlotVec.copyAssignShrink (⟨[some true, some false, some true], 3⟩ : SlotVec Bool)
      [false] = ⟨[some false, none, some true], 1⟩ ∧
    SlotVec.copyAssignShrinkClaimed (⟨[some true, some false, some true], 3⟩ : SlotVec Bool)
      [false] = ⟨[some false, none, none], 1⟩ ∧
    SlotVec.copyAssignShrink (⟨[some true, some false, some true], 3⟩ : SlotVec Bool)
      [false] ≠
    SlotVec.copyAssignShrinkClaimed (⟨[some true, some false, some true], 3⟩ : SlotVec Bool)
      [false] := by
  exact ⟨rfl, rfl, by decide⟩

/-- C4 counterexample: move assignment is implemented as a swap, so after
move-assigning a two-element vector into a one-element vector the source holds
the destination's prior element — its size is 1 and its capacity 1, not 0 and 0
as the claim states. -/
theorem moveAssign_source_not_emptied :
    ¬ ((Vector.moveAssign (⟨[true], 1⟩ : Vector Bool) ⟨[false, true], 2⟩).2.elems.length = 0 ∧
       (Vector.moveAssign (⟨[true], 1⟩ : Vector Bool) ⟨[false, true], 2⟩).2.capacity = 0) := by
  decide

/-- C4 (amended): move construction leaves the source at size 0 and capacity 0
and the destination holds exactly the source prior state; move assignment swaps
the two vectors, so the destination holds exactly the source prior size and
elements while the source receives the destination prior state (size 0 and
capacity 0 only when the destination was empty). -/
theorem move_semantics_swap {α : Type} (v w : Vector α) :
    (Vector.moveCtor v).1 = v ∧
    (Vector.moveCtor v).2.elems.length = 0 ∧
    (Vector.moveCtor v).2.capacity = 0 ∧
    (Vector.moveAssign v w).1 = w ∧
    (Vector.moveAssign v w).2 = v :=
  ⟨rfl, rfl, rfl, rfl, rfl⟩

/-- C5: when the invariant holds and capacity is exhausted (no spare slot, the
reallocating branch of a tail push or an insert runs), the new capacity equals
`max(1, 2 * old_capacity)`: doubling, with the special case that the first
growth goes from capacity 0 to capacity 1. -/
theorem growth_doubles_capacity {α : Type} (v : Vector α) (x : α) (numPos : Nat)
    (hinv : v.Inv) (hfull : ¬ v.elems.length < v.capacity) :
    (v.PushBack x).capacity = max 1 (2 * v.capacity) ∧
    (v.Emplace numPos x).capacity = max 1 (2 * v.capacity) := by
  have hinv2 : v.elems.length ≤ v.capacity := hinv
  have hcap : v.capacity = v.elems.length :=
    Nat.le_antisymm (Nat.le_of_not_lt hfull) hinv2
  have h1 : (if v.elems.length = 0 then 1 else v.elems.length * 2) =
      max 1 (2 * v.capacity) := by
    rw [hcap]
    split <;> omega
  constructor
  · show (v.PushBack x).capacity = _
    unfold Vector.PushBack
    rw [if_neg hfull]
    exact h1
  · show (v.Emplace numPos x).capacity = _
    unfold Vector.Emplace
    rw [if_neg hfull]
    exact h1

/-- C5 witness: a full vector of size 1, capacity 1 grows to capacity
`max(1, 2) = 2` on both the push and the insert path. -/
theorem growth_doubles_capacity_witness :
    ((⟨[true], 1⟩ : Vector Bool).Inv ∧ ¬ (1 : Nat) < 1) ∧
    ((⟨[true], 1⟩ : Vector Bool).PushBack false).capacity = max 1 (2 * 1) ∧
    ((⟨[true], 1⟩ : Vector Bool).Emplace 0 false).capacity = max 1 (2 * 1) :=
  ⟨⟨by decide, by decide⟩,
   growth_doubles_capacity (⟨[true], 1⟩ : Vector Bool) false 0 (by decide) (by decide)⟩

/-- C6 counterexample: for an element type that is not nothrow-move-constructible
and not copy-constructible (a move-only type with a potentially-throwing move
constructor), the source chooses move transfer while the claimed rule chooses
copy transfer. -/
theorem transferMode_ne_claimed_on_moveonly :
    transferMode ⟨false, false⟩ = TransferMode.move ∧
    transferModeClaimed ⟨false, false⟩ = TransferMode.copy ∧
    transferMode ⟨false, false⟩ ≠ transferModeClaimed ⟨false, false⟩ := by
  exact ⟨rfl, rfl, by decide⟩

/-- C6 (amended): during every reallocating transfer, existing elements are
relocated by move construction exactly when move construction is declared
non-throwing or the element type is not copy-constructible, and are transferred
by copy construction exactly when move construction may throw and the type is
copy-constructible. -/
theorem transferMode_characterization (t : ElemTraits) :
    (transferMode t = TransferMode.move ↔
      (t.nothrowMoveConstructible = true ∨ t.copyConstructible = false)) ∧
    (transferMode t = TransferMode.copy ↔
      (t.nothrowMoveConstructible = false ∧ t.copyConstructible = true)) := by
  rcases t with ⟨nm, cc⟩
  cases nm <;> cases cc <;> exact (by decide)

/-- C3 counterexample: `Erase` is not declared noexcept in the source, and it
can fail: with an element type whose move assignment throws at once (budget 0),
`Erase` at position 0 of a two-element vector propagates the exception raised by
the shift. -/
theorem erase_not_noexcept_and_can_throw :
    eraseDeclaredNoexcept = false ∧
    Vector.EraseE (⟨[true, false], 2⟩ : Vector Bool) 0 0 = .error () :=
  ⟨rfl, rfl⟩

/-- C3 (amended): `PopBack` and destruction are declared non-throwing and never
fail for every vector state; `Erase` is not declared noexcept and propagates an
exception thrown by an element move assignment during its shift, though it
succeeds, computing the exception-free result, whenever the element move
assignments performed by the shift do not throw. -/
theorem popBack_erase_dtor_failure_behavior {α : Type} (v : Vector α)
    (numPos fuel : Nat) (h : v.elems.length - (numPos + 1) ≤ fuel) :
    popBackDeclaredNoexcept = true ∧ dtorDeclaredNoexcept = true ∧
    eraseDeclaredNoexcept = false ∧
    Vector.PopBackE v fuel = .ok (v.PopBack, fuel) ∧
    Vector.dtorE v fuel = .ok fuel ∧
    Vector.EraseE v numPos fuel =
      .ok (v.Erase numPos, fuel - (v.elems.length - (numPos + 1))) := by
  refine ⟨rfl, rfl, rfl, ?_, destroyNE_ok _ _, ?_⟩
  · unfold Vector.PopBackE Vector.PopBack
    split
    · rfl
    · rfl
  · by_cases hpos : 0 < v.elems.length
    · unfold Vector.EraseE Vector.Erase
      rw [if_pos hpos, if_pos hpos]
      have hlen : (v.elems.drop (numPos + 1)).length =
          v.elems.length - (numPos + 1) := by simp
      rw [moveAssignRange_ok _ _ (by rw [hlen]; exact h), hlen]
      rfl
    · unfold Vector.EraseE Vector.Erase
      rw [if_neg hpos, if_neg hpos]
      have h0 : v.elems.length = 0 := by omega
      rw [h0]
      simp

/-- C3 witness: on a two-element vector with budget 5, erasing at position 0
performs one move assignment and succeeds with the exception-free result. -/
theorem popBack_erase_dtor_failure_behavior_witness :
    (⟨[true, false], 2⟩ : Vector Bool).elems.length - (0 + 1) ≤ 5 ∧
    Vector.EraseE (⟨[true, false], 2⟩ : Vector Bool) 0 5 =
      .ok ((⟨[true, false], 2⟩ : Vector Bool).Erase 0,
        5 - ((⟨[true, false], 2⟩ : Vector Bool).elems.length - (0 + 1))) :=
  ⟨by decide,
   (popBack_erase_dtor_failure_behavior (⟨[true, false], 2⟩ : Vector Bool) 0 5
      (by decide)).2.2.2.2.2⟩

/-- C7: the invariant `size_ <= capacity_` holds for every vector a constructor
builds and is preserved by every public operation of the model. -/
theorem inv_preserved {α : Type} (v w : Vector α) (hv : v.Inv) (hw : w.Inv)
    (x d : α) (n numPos : Nat) :
    (Vector.defaultVec α).Inv ∧
    (Vector.mkSized n d).Inv ∧
    (Vector.copyCtor v).Inv ∧
    (Vector.moveCtor v).1.Inv ∧
    (Vector.moveCtor v).2.Inv ∧
    (Vector.copyAssign v w).Inv ∧
    (Vector.moveAssign v w).1.Inv ∧
    (Vector.moveAssign v w).2.Inv ∧
    (v.Reserve n).Inv ∧
    (v.Resize d n).Inv ∧
    (v.PushBack x).Inv ∧
    (v.EmplaceBack x).Inv ∧
    (v.Emplace numPos x).Inv ∧
    (v.Erase numPos).1.Inv ∧
    v.PopBack.Inv ∧
    (Vector.Swap v w).1.Inv ∧
    (Vector.Swap v w).2.Inv := by
  have hv2 : v.elems.length ≤ v.capacity := hv
  refine ⟨Nat.le_refl 0, ?_, Nat.le_refl _, hv, Nat.le_refl 0, inv_copyAssign v w,
    hw, hv, ?_, inv_Resize v d n hv, inv_PushBack v x, inv_PushBack v x,
    inv_Emplace v numPos x, inv_Erase v numPos hv, inv_PopBack v hv, hw, hv⟩
  · show (List.replicate n d).length ≤ n
    rw [List.length_replicate]
  · show (v.Reserve n).elems.length ≤ (v.Reserve n).capacity
    rw [Reserve_elems, Reserve_capacity]
    omega

/-- C7 witness: two concrete vectors satisfying the invariant, and the invariant
after a push on the first. -/
theorem inv_preserved_witness :
    ((⟨[true], 2⟩ : Vector Bool).Inv ∧ (⟨[false], 1⟩ : Vector Bool).Inv) ∧
    ((⟨[true], 2⟩ : Vector Bool).PushBack false).Inv :=
  ⟨⟨by decide, by decide⟩,
   (inv_preserved (⟨[true], 2⟩ : Vector Bool) ⟨[false], 1⟩ (by decide) (by decide)
      false true 3 0).2.2.2.2.2.2.2.2.2.2.1⟩

/-- C8: for every vector and every valid offset, `Insert` at the offset followed
by `Erase` at the same offset restores the pre-insert element sequence exactly. -/
theorem insert_erase_roundtrip {α : Type} (v : Vector α) (numPos : Nat) (x : α)
    (h : numPos ≤ v.elems.length) :
    ((v.Insert numPos x).Erase numPos).1.elems = v.elems := by
  have he : (v.Insert numPos x).elems = insertList v.elems numPos x := by
    unfold Vector.Insert Vector.Emplace
    split <;> rfl
  have hpos : 0 < (v.Insert numPos x).elems.length := by
    rw [he, length_insertList]
    omega
  unfold Vector.Erase
  rw [if_pos hpos]
  show eraseList (v.Insert numPos x).elems numPos = v.elems
  rw [he]
  exact eraseList_insertList v.elems numPos x h

/-- C8 witness: inserting true at offset 1 of [true, false] and erasing offset 1
restores [true, false]. -/
theorem insert_erase_roundtrip_witness :
    (1 : Nat) ≤ (⟨[true, false], 2⟩ : Vector Bool).elems.length ∧
    (((⟨[true, false], 2⟩ : Vector Bool).Insert 1 true).Erase 1).1.elems =
      (⟨[true, false], 2⟩ : Vector Bool).elems :=
  ⟨by decide, insert_erase_roundtrip (⟨[true, false], 2⟩ : Vector Bool) 1 true (by decide)⟩

/-- C9: `Resize` to a smaller size keeps exactly the first `n` elements
(destroying the `size - n` trailing ones), and `Resize` to a larger size appends
exactly `n - size` value-constructed elements after the untouched prefix. -/
theorem resize_spec {α : Type} (v : Vector α) (d : α) (n : Nat) :
    (n < v.elems.length → (v.Resize d n).elems = v.elems.take n) ∧
    (v.elems.length < n →
      (v.Resize d n).elems = v.elems ++ List.replicate (n - v.elems.length) d) := by
  constructor
  · intro hlt
    have hne : ¬ n = v.elems.length := by omega
    unfold Vector.Resize
    rw [if_neg hne, if_pos hlt]
    rcases popBackTimes_eq v (v.elems.length - n) (by omega) with ⟨e1, _⟩
    rw [e1]
    congr 1
    omega
  · intro hgt
    have hne : ¬ n = v.elems.length := by omega
    have hnlt : ¬ n < v.elems.length := by omega
    unfold Vector.Resize
    rw [if_neg hne, if_neg hnlt]
    show (v.Reserve n).elems ++ List.replicate (n - v.elems.length) d = _
    rw [Reserve_elems]

/-- C9 witness: resizing [true, false] down to 1 keeps [true]; resizing it up
to 4 appends two value-constructed elements. -/
theorem resize_spec_witness :
    ((1 : Nat) < (⟨[true, false], 2⟩ : Vector Bool).elems.length ∧
      ((⟨[true, false], 2⟩ : Vector Bool).Resize false 1).elems =
        (⟨[true, false], 2⟩ : Vector Bool).elems.take 1) ∧
    ((⟨[true, false], 2⟩ : Vector Bool).elems.length < 4 ∧
      ((⟨[true, false], 2⟩ : Vector Bool).Resize false 4).elems =
        (⟨[true, false], 2⟩ : Vector Bool).elems ++
          List.replicate (4 - (⟨[true, false], 2⟩ : Vector Bool).elems.length) false) :=
  ⟨⟨by decide, (resize_spec (⟨[true, false], 2⟩ : Vector Bool) false 1).1 (by decide)⟩,
   ⟨by decide, (resize_spec (⟨[true, false], 2⟩ : Vector Bool) false 4).2 (by decide)⟩⟩

/-- C10: calling `Erase` at the end offset of an empty vector is a no-op — size,
capacity and contents are unchanged — and the returned iterator is the end
iterator. -/
theorem erase_empty_noop {α : Type} (v : Vector α) (h : v.elems = []) :
    (v.Erase v.endIdx).1 = v ∧ (v.Erase v.endIdx).2 = (v.Erase v.endIdx).1.endIdx := by
  have h0 : ¬ 0 < v.elems.length := by simp [h]
  unfold Vector.Erase
  rw [if_neg h0]
  refine ⟨rfl, ?_⟩
  show (if v.elems.length + 1 = 1 then v.endIdx else v.endIdx) = v.endIdx
  split <;> rfl

/-- C10 witness: erasing at the end of the empty vector with capacity 7 returns
the unchanged vector and the end iterator. -/
theorem erase_empty_noop_witness :
    (⟨[], 7⟩ : Vector Bool).elems = ([] : List Bool) ∧
    (((⟨[], 7⟩ : Vector Bool).Erase (⟨[], 7⟩ : Vector Bool).endIdx).1 =
        (⟨[], 7⟩ : Vector Bool) ∧
      ((⟨[], 7⟩ : Vector Bool).Erase (⟨[], 7⟩ : Vector Bool).endIdx).2 =
        ((⟨[], 7⟩ : Vector Bool).Erase (⟨[], 7⟩ : Vector Bool).endIdx).1.endIdx) :=
  ⟨rfl, erase_empty_noop (⟨[], 7⟩ : Vector Bool) rfl⟩

end AdvVec
